import Mathlib

/-! # Verification of the alignment arithmetic utilities

Shallow embedding of the C functions of the alignment demonstration
(align.h and its implementation file): LargestPowerOfTwoFactor,
PaddingSize, SortSizesDescending (with its comparator size_sorter),
TailAlignedSize and TailOffset.  size_t is modelled as a natural number
bounded by SIZE_MAX = 2^64 - 1 (a 64-bit platform); unsigned wrap-around
subtraction is made explicit where the C code may underflow.
-/

namespace AlignDemo

/-- SIZE_MAX for a 64-bit size_t. -/
def SIZE_MAX : Nat := 2 ^ 64 - 1

/-- sizeof (size_t) in bytes on the modelled platform. -/
def sizeof_size_t : Nat := 8

/-- C unsigned subtraction on size_t: wraps modulo 2^64.  It agrees with
truncated Nat subtraction whenever b ≤ a ≤ SIZE_MAX. -/
def wrap_sub (a b : Nat) : Nat := (a + (SIZE_MAX + 1) - b) % (SIZE_MAX + 1)

/-- The while-loop of LargestPowerOfTwoFactor, indexed by fuel.  State:
pow is the last adopted candidate, npow the next power of two to test.
The guard mirrors the C loop condition
Number >= npow AND Number % npow == 0 AND SIZE_MAX - npow >= npow.
The third conjunct fails as soon as npow = 2^63, so at most 63 guard
checks can succeed; with 64 units of fuel the loop always stops through
its guard, never through fuel exhaustion. -/
def lptf_loop : Nat → Nat → Nat → Nat → Nat
  | 0, _, pow, _ => pow
  | fuel + 1, Number, pow, npow =>
    if npow ≤ Number ∧ Number % npow = 0 ∧ npow ≤ SIZE_MAX - npow then
      lptf_loop fuel Number npow (npow * 2)
    else
      pow

/-- C: size_t LargestPowerOfTwoFactor(size_t Number) -/
def LargestPowerOfTwoFactor (Number : Nat) : Nat :=
  lptf_loop 64 Number 1 1

/-- C: size_t TailAlignedSize(size_t HeadSize, size_t TailSize) -/
def TailAlignedSize (HeadSize TailSize : Nat) : Nat :=
  if HeadSize = 0 ∨ TailSize = 0 then 0
  else
    let hpow := LargestPowerOfTwoFactor HeadSize
    let tpow := LargestPowerOfTwoFactor TailSize
    let factor := if hpow > tpow then hpow else tpow
    if SIZE_MAX - HeadSize < TailSize then 0
    else
      let sum := HeadSize + TailSize
      let remainder := sum % factor
      if remainder ≠ 0 then
        let padding := factor - remainder
        if SIZE_MAX - sum < padding then 0 else sum + padding
      else sum

/-- C: size_t PaddingSize(size_t HeadSize, size_t TailSize).  The C
expression total_size - TailSize - HeadSize is size_t arithmetic, hence
the explicit wrapping subtractions. -/
def PaddingSize (HeadSize TailSize : Nat) : Nat :=
  let total_size := TailAlignedSize HeadSize TailSize
  if total_size = 0 then SIZE_MAX
  else wrap_sub (wrap_sub total_size TailSize) HeadSize

/-- C: size_t TailOffset(size_t TotalSize, size_t TailSize); unchecked
size_t subtraction, wraps around when TailSize > TotalSize. -/
def TailOffset (TotalSize TailSize : Nat) : Nat :=
  wrap_sub TotalSize TailSize

/-- One fixed-size record of the array passed to SortSizesDescending: a
size_t key at byte offset 0 followed by opaque trailing payload bytes. -/
structure SizedRecord where
  size : Nat
  payload : List Nat
deriving DecidableEq

/-- C: static int size_sorter(const void * a, const void * b) -/
def size_sorter (a b : SizedRecord) : Int :=
  if a.size < b.size then 1
  else if a.size > b.size then -1
  else 0

/-- qsort with comparator size_sorter, modelled as a comparison sort (the
C standard fixes neither the algorithm nor the order of tied elements):
a may come before b whenever the comparator does not order a after b. -/
def qsort_size_sorter (l : List SizedRecord) : List SizedRecord :=
  l.mergeSort fun a b => decide (size_sorter a b ≤ 0)

/-- C: void SortSizesDescending(size_t * Array, size_t Count, size_t Size);
the Option models the possibly null Array pointer, and the list holds the
Count records the pointer designates. -/
def SortSizesDescending (Array : Option (List SizedRecord)) (Count Size : Nat) :
    Option (List SizedRecord) :=
  match Array with
  | none => none
  | some l =>
    if Count = 0 ∨ Size < sizeof_size_t then some l
    else some (qsort_size_sorter l)

/-! ## Helper lemmas -/

/-- The C idiom choosing the strictest alignment is the maximum. -/
theorem gt_ite_eq_max (a b : Nat) : (if a > b then a else b) = max a b := by
  rw [Nat.max_def]; split <;> split <;> omega

/-- The loop keeps its candidate positive. -/
theorem lptf_loop_pos (fuel : Nat) : ∀ n pow npow, 1 ≤ pow → 1 ≤ npow →
    1 ≤ lptf_loop fuel n pow npow := by
  induction fuel with
  | zero => intro n pow npow hp _; simpa [lptf_loop] using hp
  | succ fuel ih =>
    intro n pow npow hp hq
    rw [lptf_loop]
    split
    · exact ih n npow (npow * 2) hq (by omega)
    · exact hp

/-- Loop invariant: the candidate divides Number and is a power of two. -/
theorem lptf_loop_dvd (fuel : Nat) : ∀ n pow npow, pow ∣ n → (∃ j, pow = 2 ^ j) →
    (∃ j, npow = 2 ^ j) →
    lptf_loop fuel n pow npow ∣ n ∧ ∃ j, lptf_loop fuel n pow npow = 2 ^ j := by
  induction fuel with
  | zero => intro n pow npow hd hp _; simpa [lptf_loop] using ⟨hd, hp⟩
  | succ fuel ih =>
    intro n pow npow hd hp hq
    rw [lptf_loop]
    split
    · rename_i hcond
      obtain ⟨j, rfl⟩ := hq
      exact ih n _ _ (Nat.dvd_of_mod_eq_zero hcond.2.1) ⟨j, rfl⟩ ⟨j + 1, by rw [pow_succ]⟩
    · exact ⟨hd, hp⟩

theorem lptf_pos (n : Nat) : 1 ≤ LargestPowerOfTwoFactor n :=
  lptf_loop_pos 64 n 1 1 (le_refl 1) (le_refl 1)

theorem lptf_dvd (n : Nat) : LargestPowerOfTwoFactor n ∣ n :=
  (lptf_loop_dvd 64 n 1 1 (one_dvd n) ⟨0, rfl⟩ ⟨0, rfl⟩).1

theorem lptf_pow2 (n : Nat) : ∃ j, LargestPowerOfTwoFactor n = 2 ^ j :=
  (lptf_loop_dvd 64 n 1 1 (one_dvd n) ⟨0, rfl⟩ ⟨0, rfl⟩).2

/-- An odd number has no even power-of-two factor. -/
theorem lptf_odd (n : Nat) (hodd : n % 2 = 1) : LargestPowerOfTwoFactor n = 1 := by
  obtain ⟨j, hj⟩ := lptf_pow2 n
  have hdvd := lptf_dvd n
  match j, hj with
  | 0, hj => simpa using hj
  | j + 1, hj =>
    exfalso
    rw [hj] at hdvd
    have h2 : 2 ∣ n := dvd_trans (dvd_pow_self 2 (Nat.succ_ne_zero j)) hdvd
    omega

/-- Rounding up to the next multiple produces a multiple. -/
theorem round_up_dvd (s F : Nat) (hF : 0 < F) (_hr : s % F ≠ 0) :
    F ∣ s + (F - s % F) := by
  have hqr := Nat.div_add_mod s F
  have hrlt : s % F < F := Nat.mod_lt _ hF
  refine ⟨s / F + 1, ?_⟩
  rw [Nat.mul_succ]
  omega

/-- Rounding up to the next multiple is minimal among larger multiples. -/
theorem round_up_min (s F T : Nat) (hF : 0 < F) (hr : s % F ≠ 0) (hdvd : F ∣ T)
    (hle : s ≤ T) : s + (F - s % F) ≤ T := by
  obtain ⟨m, rfl⟩ := hdvd
  have hqr := Nat.div_add_mod s F
  have hrlt : s % F < F := Nat.mod_lt _ hF
  have hq : s / F < m := by
    rcases Nat.lt_or_ge (s / F) m with hlt | hge
    · exact hlt
    · exfalso
      have := Nat.mul_le_mul_left F hge
      omega
  have := Nat.mul_le_mul_left F hq
  rw [Nat.mul_succ] at this
  omega

/-- Wrapping subtraction agrees with truncated subtraction in range. -/
theorem wrap_sub_eq (a b : Nat) (hb : b ≤ a) (ha : a ≤ SIZE_MAX) :
    wrap_sub a b = a - b := by
  simp only [wrap_sub, SIZE_MAX] at *
  omega

theorem tas_zero_of_zero (h t : Nat) (hz : h = 0 ∨ t = 0) : TailAlignedSize h t = 0 := by
  rw [TailAlignedSize, if_pos hz]

/-- Unfolding of TailAlignedSize away from the zero-argument guard. -/
theorem tas_eq (h t : Nat) (hh : h ≠ 0) (ht : t ≠ 0) :
    TailAlignedSize h t =
      if SIZE_MAX - h < t then 0
      else
        if (h + t) % max (LargestPowerOfTwoFactor h) (LargestPowerOfTwoFactor t) ≠ 0 then
          if SIZE_MAX - (h + t) <
              max (LargestPowerOfTwoFactor h) (LargestPowerOfTwoFactor t) -
                (h + t) % max (LargestPowerOfTwoFactor h) (LargestPowerOfTwoFactor t)
          then 0
          else (h + t) +
            (max (LargestPowerOfTwoFactor h) (LargestPowerOfTwoFactor t) -
              (h + t) % max (LargestPowerOfTwoFactor h) (LargestPowerOfTwoFactor t))
        else h + t := by
  simp only [TailAlignedSize, gt_ite_eq_max]
  rw [if_neg (by simp [hh, ht])]

/-- Master case analysis for TailAlignedSize with nonzero arguments. -/
theorem tas_main (h t : Nat) (hh : h ≠ 0) (ht : t ≠ 0) :
    (TailAlignedSize h t = 0 ↔
      SIZE_MAX < h + t ∨
        ((h + t) % max (LargestPowerOfTwoFactor h) (LargestPowerOfTwoFactor t) ≠ 0 ∧
          SIZE_MAX < h + t +
            (max (LargestPowerOfTwoFactor h) (LargestPowerOfTwoFactor t) -
              (h + t) % max (LargestPowerOfTwoFactor h) (LargestPowerOfTwoFactor t)))) ∧
    (TailAlignedSize h t ≠ 0 →
      max (LargestPowerOfTwoFactor h) (LargestPowerOfTwoFactor t) ∣ TailAlignedSize h t ∧
      h + t ≤ TailAlignedSize h t ∧
      TailAlignedSize h t ≤ SIZE_MAX ∧
      TailAlignedSize h t - t - h <
        max (LargestPowerOfTwoFactor h) (LargestPowerOfTwoFactor t) ∧
      ∀ T, max (LargestPowerOfTwoFactor h) (LargestPowerOfTwoFactor t) ∣ T →
        h + t ≤ T → TailAlignedSize h t ≤ T) := by
  have hh1 : 1 ≤ h := Nat.one_le_iff_ne_zero.mpr hh
  have ht1 : 1 ≤ t := Nat.one_le_iff_ne_zero.mpr ht
  have hF : 0 < max (LargestPowerOfTwoFactor h) (LargestPowerOfTwoFactor t) :=
    lt_of_lt_of_le (lptf_pos h) (le_max_left _ _)
  rw [tas_eq h t hh ht]
  by_cases hov : SIZE_MAX - h < t
  · rw [if_pos hov]
    have hgt : SIZE_MAX < h + t := by omega
    constructor
    · simp [hgt]
    · intro hc; exact absurd rfl hc
  · rw [if_neg hov]
    have hsum : h + t ≤ SIZE_MAX := by omega
    by_cases hrem :
        (h + t) % max (LargestPowerOfTwoFactor h) (LargestPowerOfTwoFactor t) ≠ 0
    · rw [if_pos hrem]
      have hpadlt :
          max (LargestPowerOfTwoFactor h) (LargestPowerOfTwoFactor t) -
            (h + t) % max (LargestPowerOfTwoFactor h) (LargestPowerOfTwoFactor t) <
          max (LargestPowerOfTwoFactor h) (LargestPowerOfTwoFactor t) := by omega
      by_cases hov2 : SIZE_MAX - (h + t) <
          max (LargestPowerOfTwoFactor h) (LargestPowerOfTwoFactor t) -
            (h + t) % max (LargestPowerOfTwoFactor h) (LargestPowerOfTwoFactor t)
      · rw [if_pos hov2]
        constructor
        · constructor
          · intro _; right; exact ⟨hrem, by omega⟩
          · intro _; rfl
        · intro hc; exact absurd rfl hc
      · rw [if_neg hov2]
        constructor
        · constructor
          · intro hzero; omega
          · rintro (hbig | ⟨_, hbig⟩) <;> omega
        · intro _
          refine ⟨round_up_dvd _ _ hF hrem, by omega, by omega, by omega, ?_⟩
          intro T hdvd hle
          exact round_up_min _ _ _ hF hrem hdvd hle
    · rw [if_neg hrem]
      push_neg at hrem
      constructor
      · constructor
        · intro hzero; omega
        · rintro (hbig | ⟨hne, _⟩) <;> omega
      · intro _
        refine ⟨Nat.dvd_of_mod_eq_zero hrem, le_refl _, hsum, by omega, ?_⟩
        intro T _ hle
        exact hle

/-- TailAlignedSize is nonzero only when both arguments are nonzero. -/
theorem tas_ne_zero_args (h t : Nat) (hnz : TailAlignedSize h t ≠ 0) :
    h ≠ 0 ∧ t ≠ 0 := by
  constructor
  · intro hc; exact hnz (tas_zero_of_zero h t (Or.inl hc))
  · intro hc; exact hnz (tas_zero_of_zero h t (Or.inr hc))

/-- In the success case PaddingSize computes total - TailSize - HeadSize
without wrap-around. -/
theorem padding_eq (h t : Nat) (hnz : TailAlignedSize h t ≠ 0) :
    PaddingSize h t = TailAlignedSize h t - t - h := by
  obtain ⟨hh, ht⟩ := tas_ne_zero_args h t hnz
  obtain ⟨_, hge, hle, _, _⟩ := (tas_main h t hh ht).2 hnz
  simp only [PaddingSize]
  rw [if_neg hnz]
  rw [wrap_sub_eq _ _ (by omega) hle, wrap_sub_eq _ _ (by omega) (by omega)]

/-! ## Claim theorems -/

/-- C1: for nonzero HeadSize and TailSize on which TailAlignedSize does not
fail, the result is the least T that is a multiple of the alignment factor
max(LargestPowerOfTwoFactor HeadSize, LargestPowerOfTwoFactor TailSize)
and satisfies T ≥ HeadSize + TailSize; in particular the factor divides the
result and the result is at least the sum. -/
theorem tailAlignedSize_least (h t : Nat) (hh : h ≠ 0) (ht : t ≠ 0)
    (hnz : TailAlignedSize h t ≠ 0) :
    max (LargestPowerOfTwoFactor h) (LargestPowerOfTwoFactor t) ∣ TailAlignedSize h t ∧
    h + t ≤ TailAlignedSize h t ∧
    ∀ T, max (LargestPowerOfTwoFactor h) (LargestPowerOfTwoFactor t) ∣ T →
      h + t ≤ T → TailAlignedSize h t ≤ T := by
  obtain ⟨hdvd, hge, _, _, hmin⟩ := (tas_main h t hh ht).2 hnz
  exact ⟨hdvd, hge, hmin⟩

/-- C1 witness at HeadSize 4, TailSize 8 (total 16, factor 8). -/
theorem tailAlignedSize_least_witness :
    max (LargestPowerOfTwoFactor 4) (LargestPowerOfTwoFactor 8) ∣ TailAlignedSize 4 8 ∧
    4 + 8 ≤ TailAlignedSize 4 8 ∧
    ∀ T, max (LargestPowerOfTwoFactor 4) (LargestPowerOfTwoFactor 8) ∣ T →
      4 + 8 ≤ T → TailAlignedSize 4 8 ≤ T :=
  tailAlignedSize_least 4 8 (by decide) (by decide) (by decide)

/-- C2: TailAlignedSize returns 0 exactly when an argument is zero, the sum
overflows SIZE_MAX, or adding the padding to the next multiple of the
alignment factor overflows SIZE_MAX; and any nonzero result is at least
HeadSize + TailSize ≥ 2. -/
theorem tailAlignedSize_zero_iff (h t : Nat) :
    (TailAlignedSize h t = 0 ↔
      h = 0 ∨ t = 0 ∨ SIZE_MAX < h + t ∨
        ((h + t) % max (LargestPowerOfTwoFactor h) (LargestPowerOfTwoFactor t) ≠ 0 ∧
          SIZE_MAX < h + t +
            (max (LargestPowerOfTwoFactor h) (LargestPowerOfTwoFactor t) -
              (h + t) % max (LargestPowerOfTwoFactor h) (LargestPowerOfTwoFactor t)))) ∧
    (TailAlignedSize h t ≠ 0 → 2 ≤ h + t ∧ h + t ≤ TailAlignedSize h t) := by
  by_cases hz : h = 0 ∨ t = 0
  · constructor
    · constructor
      · intro _
        rcases hz with hz | hz
        · exact Or.inl hz
        · exact Or.inr (Or.inl hz)
      · intro _; exact tas_zero_of_zero h t hz
    · intro hc; exact absurd (tas_zero_of_zero h t hz) hc
  · push_neg at hz
    obtain ⟨hh, ht⟩ := hz
    have hmain := tas_main h t hh ht
    constructor
    · rw [hmain.1]
      constructor
      · intro hc; exact Or.inr (Or.inr hc)
      · rintro (hc | hc | hc)
        · exact absurd hc hh
        · exact absurd hc ht
        · exact hc
    · intro hnz
      obtain ⟨_, hge, _, _, _⟩ := hmain.2 hnz
      have hh1 : 1 ≤ h := Nat.one_le_iff_ne_zero.mpr hh
      have ht1 : 1 ≤ t := Nat.one_le_iff_ne_zero.mpr ht
      exact ⟨by omega, hge⟩

/-- C2 witness: a zero argument fails, and at (4, 8) the nonzero result
bounds hold. -/
theorem tailAlignedSize_zero_iff_witness :
    TailAlignedSize 0 5 = 0 ∧ 2 ≤ 4 + 8 ∧ 4 + 8 ≤ TailAlignedSize 4 8 :=
  ⟨(tailAlignedSize_zero_iff 0 5).1.mpr (Or.inl rfl),
    (tailAlignedSize_zero_iff 4 8).2 (by decide)⟩

/-- C3 counterexample: 2^63 is a power of two representable in the size
type, yet LargestPowerOfTwoFactor does not return it (the overflow guard
stops the doubling at 2^62). -/
theorem lptf_top_pow2_counterexample :
    (∃ k, (2 : Nat) ^ 63 = 2 ^ k) ∧ (2 : Nat) ^ 63 ≤ SIZE_MAX ∧
      LargestPowerOfTwoFactor (2 ^ 63) ≠ 2 ^ 63 :=
  ⟨⟨63, rfl⟩, by decide, by decide⟩

/-- C3 amended: a power of two whose double is still representable is
returned unchanged (all powers up to 2^62); on the largest representable
power of two, 2^63, the function returns 2^62. -/
theorem lptf_pow2_exact :
    (∀ k, k ≤ 62 → LargestPowerOfTwoFactor (2 ^ k) = 2 ^ k) ∧
    LargestPowerOfTwoFactor (2 ^ 63) = 2 ^ 62 := by
  constructor
  · decide
  · decide

/-- C3 amended witness at 2^3 = 8. -/
theorem lptf_pow2_exact_witness : LargestPowerOfTwoFactor (2 ^ 3) = 2 ^ 3 :=
  lptf_pow2_exact.1 3 (by decide)

/-- C4: for nonzero Number the result divides Number, is a power of two,
is at least 1, is exactly 1 on odd input, and takes the documented values
at 1, 8, 12 and 7. -/
theorem lptf_divides_and_pow2 (n : Nat) (_hn : n ≠ 0) :
    LargestPowerOfTwoFactor n ∣ n ∧ (∃ k, LargestPowerOfTwoFactor n = 2 ^ k) ∧
    1 ≤ LargestPowerOfTwoFactor n ∧
    (n % 2 = 1 → LargestPowerOfTwoFactor n = 1) ∧
    LargestPowerOfTwoFactor 1 = 1 ∧ LargestPowerOfTwoFactor 8 = 8 ∧
    LargestPowerOfTwoFactor 12 = 4 ∧ LargestPowerOfTwoFactor 7 = 1 :=
  ⟨lptf_dvd n, lptf_pow2 n, lptf_pos n, lptf_odd n, by decide, by decide,
    by decide, by decide⟩

/-- C4 witness at 12 (divisibility) and 7 (odd input gives 1). -/
theorem lptf_divides_and_pow2_witness :
    LargestPowerOfTwoFactor 12 ∣ 12 ∧ LargestPowerOfTwoFactor 7 = 1 :=
  ⟨(lptf_divides_and_pow2 12 (by decide)).1,
    (lptf_divides_and_pow2 7 (by decide)).2.2.2.1 (by decide)⟩

/-- C5: PaddingSize is the sentinel SIZE_MAX exactly on the inputs where
TailAlignedSize fails, and otherwise equals
TailAlignedSize h t - TailSize - HeadSize, a value that can never be
SIZE_MAX, so the sentinel is unambiguous. -/
theorem paddingSize_spec (h t : Nat) :
    (TailAlignedSize h t = 0 → PaddingSize h t = SIZE_MAX) ∧
    (TailAlignedSize h t ≠ 0 →
      PaddingSize h t = TailAlignedSize h t - t - h ∧ PaddingSize h t ≠ SIZE_MAX) := by
  constructor
  · intro hz; rw [PaddingSize]; simp [hz]
  · intro hnz
    obtain ⟨hh, ht⟩ := tas_ne_zero_args h t hnz
    obtain ⟨hdvd, hge, hle, hpad, _⟩ := (tas_main h t hh ht).2 hnz
    have hFle : max (LargestPowerOfTwoFactor h) (LargestPowerOfTwoFactor t) ≤
        TailAlignedSize h t :=
      Nat.le_of_dvd (Nat.pos_of_ne_zero hnz) hdvd
    refine ⟨padding_eq h t hnz, ?_⟩
    rw [padding_eq h t hnz]
    omega

/-- C5 witness: success at (4, 8) with padding 4, failure at (0, 5) giving
the SIZE_MAX sentinel. -/
theorem paddingSize_spec_witness :
    PaddingSize 4 8 = TailAlignedSize 4 8 - 8 - 4 ∧ PaddingSize 0 5 = SIZE_MAX :=
  ⟨((paddingSize_spec 4 8).2 (by decide)).1,
    (paddingSize_spec 0 5).1 (by decide)⟩

/-- C6: on valid inputs TailOffset applied to the computed total recovers
total - TailSize, an offset at least HeadSize, so head and tail regions do
not overlap. -/
theorem tailOffset_round_trip (h t : Nat) (hh : h ≠ 0) (ht : t ≠ 0)
    (hnz : TailAlignedSize h t ≠ 0) :
    TailOffset (TailAlignedSize h t) t = TailAlignedSize h t - t ∧
    h ≤ TailOffset (TailAlignedSize h t) t := by
  obtain ⟨_, hge, hle, _, _⟩ := (tas_main h t hh ht).2 hnz
  have heq : TailOffset (TailAlignedSize h t) t = TailAlignedSize h t - t := by
    rw [TailOffset, wrap_sub_eq _ _ (by omega) hle]
  exact ⟨heq, by rw [heq]; omega⟩

/-- C6 witness at (4, 8): total 16, tail offset 8 ≥ 4. -/
theorem tailOffset_round_trip_witness :
    TailOffset (TailAlignedSize 4 8) 8 = TailAlignedSize 4 8 - 8 ∧
    4 ≤ TailOffset (TailAlignedSize 4 8) 8 :=
  tailOffset_round_trip 4 8 (by decide) (by decide) (by decide)

/-- C9: LargestPowerOfTwoFactor 0 = 1 and the loop stops on input 0
whatever fuel remains: its first guard Number >= npow already fails. -/
theorem lptf_zero :
    LargestPowerOfTwoFactor 0 = 1 ∧ ∀ fuel, lptf_loop fuel 0 1 1 = 1 := by
  constructor
  · decide
  · intro fuel
    cases fuel with
    | zero => rfl
    | succ fuel => rw [lptf_loop, if_neg (by omega)]

/-- C10: swapping head and tail changes neither the computed total size
nor the padding, in success and failure cases alike. -/
theorem tailAlignedSize_symm (h t : Nat) :
    TailAlignedSize h t = TailAlignedSize t h ∧ PaddingSize h t = PaddingSize t h := by
  by_cases hz : h = 0 ∨ t = 0
  · have h1 : TailAlignedSize h t = 0 := tas_zero_of_zero h t hz
    have h2 : TailAlignedSize t h = 0 := tas_zero_of_zero t h (Or.symm hz)
    refine ⟨by rw [h1, h2], ?_⟩
    rw [PaddingSize, PaddingSize]
    simp [h1, h2]
  · push_neg at hz
    obtain ⟨hh, ht⟩ := hz
    have hh1 : 1 ≤ h := Nat.one_le_iff_ne_zero.mpr hh
    have ht1 : 1 ≤ t := Nat.one_le_iff_ne_zero.mpr ht
    have htas : TailAlignedSize h t = TailAlignedSize t h := by
      rw [tas_eq h t hh ht, tas_eq t h ht hh]
      simp only [Nat.add_comm t h,
        Nat.max_comm (LargestPowerOfTwoFactor t) (LargestPowerOfTwoFactor h),
        show (SIZE_MAX - t < h) ↔ (SIZE_MAX - h < t) from by omega]
    refine ⟨htas, ?_⟩
    by_cases hnz : TailAlignedSize h t = 0
    · rw [PaddingSize, PaddingSize, ← htas]
      simp [hnz]
    · have hnz' : TailAlignedSize t h ≠ 0 := by rw [← htas]; exact hnz
      rw [padding_eq h t hnz, padding_eq t h hnz', ← htas]
      omega

/-! ## Sort utility lemmas -/

/-- The comparator orders a no later than b exactly when the key of a is
at least the key of b: descending order on the size field alone. -/
theorem size_sorter_le_iff (a b : SizedRecord) :
    size_sorter a b ≤ 0 ↔ b.size ≤ a.size := by
  rw [size_sorter]
  split_ifs <;> constructor <;> intro <;> omega

theorem sorter_trans (a b c : SizedRecord)
    (h1 : decide (size_sorter a b ≤ 0) = true)
    (h2 : decide (size_sorter b c ≤ 0) = true) :
    decide (size_sorter a c ≤ 0) = true := by
  rw [decide_eq_true_iff, size_sorter_le_iff] at *
  omega

theorem sorter_total (a b : SizedRecord) :
    (decide (size_sorter a b ≤ 0) || decide (size_sorter b a ≤ 0)) = true := by
  simp only [Bool.or_eq_true, decide_eq_true_iff, size_sorter_le_iff]
  omega

/-- C7: a call on a present array of Count records whose record size can
hold the key reorders the records into a permutation whose keys descend,
each key keeping its payload, and the key sequence of the output is
determined by the key sequence of the input alone. -/
theorem sortSizesDescending_sorts (l : List SizedRecord) (Count Size : Nat)
    (hc : Count = l.length) (h1 : 1 ≤ Count) (hs : sizeof_size_t ≤ Size) :
    ∃ l2, SortSizesDescending (some l) Count Size = some l2 ∧
      l2.Perm l ∧
      List.Pairwise (fun a b => b.size ≤ a.size) l2 ∧
      l2.map SizedRecord.size =
        (l.map SizedRecord.size).mergeSort (fun a b => decide (b ≤ a)) := by
  refine ⟨qsort_size_sorter l, ?_, ?_, ?_, ?_⟩
  · simp only [SortSizesDescending]
    rw [if_neg]
    rintro (hzero | hsmall) <;> omega
  · exact List.mergeSort_perm l _
  · have hpw := List.sorted_mergeSort sorter_trans sorter_total l
    refine List.Pairwise.imp ?_ hpw
    intro a b hab
    rw [decide_eq_true_iff, size_sorter_le_iff] at hab
    exact hab
  · apply List.map_mergeSort
    intro a _ b _
    exact decide_eq_decide.mpr (size_sorter_le_iff a b)

/-- C7 witness on records (2, "a"), (8, "b"), (4, "c") with stride 16. -/
theorem sortSizesDescending_sorts_witness :
    ∃ l2,
      SortSizesDescending (some [⟨2, [97]⟩, ⟨8, [98]⟩, ⟨4, [99]⟩]) 3 16 = some l2 ∧
      l2.Perm [⟨2, [97]⟩, ⟨8, [98]⟩, ⟨4, [99]⟩] ∧
      List.Pairwise (fun a b => b.size ≤ a.size) l2 ∧
      l2.map SizedRecord.size =
        ([⟨2, [97]⟩, ⟨8, [98]⟩, ⟨4, [99]⟩].map SizedRecord.size).mergeSort
          (fun a b => decide (b ≤ a)) :=
  sortSizesDescending_sorts [⟨2, [97]⟩, ⟨8, [98]⟩, ⟨4, [99]⟩] 3 16 rfl
    (by decide) (by decide)

/-- C8: with a null array pointer, a zero Count, or a record size too
small to hold a size_t key, SortSizesDescending changes nothing. -/
theorem sortSizesDescending_noop (l : List SizedRecord) (Count Size : Nat) :
    SortSizesDescending none Count Size = none ∧
    (Count = 0 → SortSizesDescending (some l) Count Size = some l) ∧
    (Size < sizeof_size_t → SortSizesDescending (some l) Count Size = some l) := by
  refine ⟨rfl, ?_, ?_⟩
  · intro h
    simp only [SortSizesDescending]
    rw [if_pos (Or.inl h)]
  · intro h
    simp only [SortSizesDescending]
    rw [if_pos (Or.inr h)]

/-- C8 witness: Count 0 leaves a one-record array untouched. -/
theorem sortSizesDescending_noop_witness :
    SortSizesDescending (some [⟨5, [1]⟩]) 0 3 = some [⟨5, [1]⟩] :=
  (sortSizesDescending_noop [⟨5, [1]⟩] 0 3).2.1 rfl

end AlignDemo
